import Mathlib

/-!
Verification of the JARVIS request-routing core: a shallow embedding of the
classifier (`Router.classify`, `src/router/Router.ts`), the device-command
parser (`DeviceActions.parseCommand`, `src/tools/WebFetch.ts`), the tier
dispatcher (`EngineSelector.generateStream`, `src/router/Router.ts`), the two
engine adapters (`LocalLlamaEngine.generateStream`, `VllmEngine.generateStream`)
and the session caches (`SessionManager` and the module-level llama-session
registry, `src/session/SessionManager.ts`), together with theorems about the
routing, fallback, streaming and capacity behaviour of these functions.

Strings are modelled on `List Char`; all inputs of interest are ASCII, where
JavaScript `toLowerCase`/`trim`/`includes`/`length` agree with the character
level operations defined below.  JavaScript numeric confidences are embedded
as `ℚ` (they are exact decimal literals in the source); token counts and
timestamps are `Nat`.
-/

/-- ASCII lower-casing of one character (JS `toLowerCase` on ASCII input). -/
def lowerChar (c : Char) : Char :=
  if 65 ≤ c.toNat ∧ c.toNat ≤ 90 then Char.ofNat (c.toNat + 32) else c

/-- Lower-case every character (JS `String.prototype.toLowerCase` on ASCII). -/
def lowerChars (l : List Char) : List Char := l.map lowerChar

/-- Whitespace test used by `trim` (space, tab, CR, LF cover the sources). -/
def isWsChar (c : Char) : Bool := c = ' ' || c = '\t' || c = '\r' || c = '\n'

/-- JS `String.prototype.trim`: drop leading and trailing whitespace. -/
def trimChars (l : List Char) : List Char :=
  ((l.dropWhile isWsChar).reverse.dropWhile isWsChar).reverse

/-- Does the text start with the pattern?  (JS regex anchor `^pat`.) -/
def startsChars : List Char → List Char → Bool
  | [], _ => true
  | _ :: _, [] => false
  | p :: ps, c :: cs => p == c && startsChars ps cs

/-- Does the text contain the pattern as a contiguous substring?
(JS `String.prototype.includes`.) -/
def hasSubChars (pat : List Char) : List Char → Bool
  | [] => startsChars pat []
  | c :: cs => startsChars pat (c :: cs) || hasSubChars pat cs

/-- `lower.includes(keyword)` on the already-lowercased text `l`. -/
def includesStr (l : List Char) (pat : String) : Bool := hasSubChars pat.data l

/-- `/\d+/.test(s)`: the text contains a digit. -/
def hasDigitChars (l : List Char) : Bool := l.any Char.isDigit

/-- Numeric value of a list of ASCII digit characters (JS `parseInt`). -/
def digitsToNat (l : List Char) : Nat := l.foldl (fun n c => n * 10 + (c.toNat - 48)) 0

/-- The first maximal run of digits in the text (JS `s.match(/\d+/)?.[0]`). -/
def firstDigitRun : List Char → Option (List Char)
  | [] => none
  | c :: cs => if c.isDigit then some (c :: cs.takeWhile Char.isDigit) else firstDigitRun cs

/-- First number appearing in the text, if any. -/
def firstNatOf (l : List Char) : Option Nat := (firstDigitRun l).map digitsToNat

/-- Device category of a parsed command (`DeviceCommand.type` in
`src/tools/WebFetch.ts`). -/
inductive DeviceType where
  | lights
  | thermostat
  | music
  | security
  | general
  deriving DecidableEq, Repr

/-- A structured device command (`DeviceCommand` in `src/tools/WebFetch.ts`).
The only structured parameter `parseCommand` ever produces is the thermostat
temperature, embedded here as `temperature`. -/
structure DeviceCommand where
  dtype : DeviceType
  action : String
  temperature : Option Nat
  deriving DecidableEq, Repr

/-- The lights block of `DeviceActions.parseCommand`.  On a guard match with
no matching inner action, the source falls through to the next block, hence
the `Option` result. -/
def parseLights (lower : List Char) : Option DeviceCommand :=
  if includesStr lower "light" || includesStr lower "lamp" then
    if includesStr lower "turn on" || includesStr lower "switch on" then
      some ⟨DeviceType.lights, "turn_on", none⟩
    else if includesStr lower "turn off" || includesStr lower "switch off" then
      some ⟨DeviceType.lights, "turn_off", none⟩
    else if includesStr lower "dim" then
      some ⟨DeviceType.lights, "dim", none⟩
    else if includesStr lower "brighten" || includesStr lower "bright" then
      some ⟨DeviceType.lights, "brighten", none⟩
    else none
  else none

/-- The thermostat block of `DeviceActions.parseCommand`. -/
def parseThermostat (lower : List Char) : Option DeviceCommand :=
  if includesStr lower "temperature" || includesStr lower "thermostat" ||
      includesStr lower "heat" || includesStr lower "cool" then
    if includesStr lower "set" && hasDigitChars lower then
      some ⟨DeviceType.thermostat, "set_temperature", some ((firstNatOf lower).getD 72)⟩
    else if includesStr lower "raise" || includesStr lower "up" || includesStr lower "warmer" then
      some ⟨DeviceType.thermostat, "raise_temperature", none⟩
    else if includesStr lower "lower" || includesStr lower "down" || includesStr lower "cooler" then
      some ⟨DeviceType.thermostat, "lower_temperature", none⟩
    else none
  else none

/-- The music block of `DeviceActions.parseCommand`. -/
def parseMusic (lower : List Char) : Option DeviceCommand :=
  if includesStr lower "music" || includesStr lower "song" ||
      includesStr lower "play" || includesStr lower "spotify" then
    if includesStr lower "play" then some ⟨DeviceType.music, "play", none⟩
    else if includesStr lower "pause" then some ⟨DeviceType.music, "pause", none⟩
    else if includesStr lower "stop" then some ⟨DeviceType.music, "stop", none⟩
    else if includesStr lower "volume up" || includesStr lower "louder" then
      some ⟨DeviceType.music, "volume_up", none⟩
    else if includesStr lower "volume down" || includesStr lower "quieter" then
      some ⟨DeviceType.music, "volume_down", none⟩
    else none
  else none

/-- The security block of `DeviceActions.parseCommand`.  Inner checks are in
source order (`lock` is tested before `unlock`, `arm` before `disarm`). -/
def parseSecurity (lower : List Char) : Option DeviceCommand :=
  if includesStr lower "lock" || includesStr lower "unlock" ||
      includesStr lower "security" || includesStr lower "alarm" then
    if includesStr lower "lock" then some ⟨DeviceType.security, "lock_doors", none⟩
    else if includesStr lower "unlock" then some ⟨DeviceType.security, "unlock_doors", none⟩
    else if includesStr lower "arm" then some ⟨DeviceType.security, "arm", none⟩
    else if includesStr lower "disarm" then some ⟨DeviceType.security, "disarm", none⟩
    else none
  else none

/-- `DeviceActions.parseCommand` (`src/tools/WebFetch.ts`): lower-cases the raw
input (no trim) and tries the four pattern blocks in order. -/
def parseCommand (input : String) : Option DeviceCommand :=
  let lower := lowerChars input.data
  match parseLights lower with
  | some c => some c
  | none =>
    match parseThermostat lower with
    | some c => some c
    | none =>
      match parseMusic lower with
      | some c => some c
      | none => parseSecurity lower

/-- Routing class (`RouteClass` in `src/router/Router.ts`). -/
inductive RouteClass where
  | direct_command
  | trivial
  | normal
  | hard
  deriving DecidableEq, Repr

/-- A routing decision (`RouteResult` in `src/router/Router.ts`).  The source
field `class` is a Lean keyword and is embedded as `rclass`. -/
structure RouteResult where
  rclass : RouteClass
  confidence : ℚ
  reasoning : String
  deviceCommand : Option DeviceCommand
  deriving DecidableEq, Repr

/-- `Router.hardKeywords`. -/
def hardKeywords : List String :=
  ["multi-step", "full design", "long plan", "refactor large file",
   "architect", "comprehensive", "detailed analysis", "compare multiple",
   "research", "write a report", "create a document", "plan a project"]

/-- `Router.directCommandKeywords`. -/
def directCommandKeywords : List String :=
  ["turn on", "turn off", "play music", "stop music", "lock doors",
   "unlock doors", "set temperature", "dim lights", "brighten lights",
   "arm security", "disarm security"]

/-- Prefixes of the simple-factual-question regex
`^(what is|what's|who is|who's|when is|when's|where is|where's)`. -/
def factualPrefixes : List String :=
  ["what is", "what\x27s", "who is", "who\x27s",
   "when is", "when\x27s", "where is", "where\x27s"]

/-- The question words scanned by `Router.classify`. -/
def questionWords : List String := ["what", "why", "how", "when", "where", "who"]

/-- `Router.classify` (`src/router/Router.ts`).  `lower` is the lower-cased and
trimmed input, used for all keyword and prefix matching; the two length rules
read the raw `input.length`, exactly as in the source. -/
def classify (input : String) : RouteResult :=
  let lower := trimChars (lowerChars input.data)
  match parseCommand input with
  | some dc =>
    ⟨RouteClass.direct_command, 0.95, "Detected device/automation command", some dc⟩
  | none =>
    if directCommandKeywords.any (fun k => includesStr lower k) then
      ⟨RouteClass.direct_command, 0.9, "Contains direct command keywords", none⟩
    else if hardKeywords.any (fun k => includesStr lower k) then
      ⟨RouteClass.hard, 0.9, "Contains complexity keywords indicating hard query", none⟩
    else if input.data.length < 10 then
      ⟨RouteClass.trivial, 0.7, "Very short input likely trivial", none⟩
    else if input.data.length > 200 then
      ⟨RouteClass.hard, 0.8, "Long input suggests complex query", none⟩
    else if (questionWords.any (fun k => includesStr lower k)) &&
        (factualPrefixes.any (fun p => startsChars p.data lower)) then
      ⟨RouteClass.trivial, 0.8, "Simple factual question", none⟩
    else if (questionWords.any (fun k => includesStr lower k)) &&
        includesStr lower "how" &&
        (includesStr lower "work" || includesStr lower "implement" ||
         includesStr lower "design") then
      ⟨RouteClass.hard, 0.8, "Complex how-to or explanation question", none⟩
    else if includesStr lower "code" || includesStr lower "function" ||
        includesStr lower "class" || includesStr lower "algorithm" ||
        includesStr lower "implement" || includesStr lower "debug" then
      if includesStr lower "simple" || includesStr lower "basic" ||
          includesStr lower "quick" then
        ⟨RouteClass.normal, 0.7, "Simple technical query", none⟩
      else
        ⟨RouteClass.hard, 0.8, "Technical/coding query", none⟩
    else if hasDigitChars lower &&
        (includesStr lower "calculate" || includesStr lower "compute" ||
         includesStr lower "+" || includesStr lower "-" ||
         includesStr lower "*" || includesStr lower "/") then
      ⟨RouteClass.trivial, 0.8, "Simple calculation", none⟩
    else
      ⟨RouteClass.normal, 0.6, "Default classification for conversational input", none⟩

/-- Backend tier (`'router' | 'primary' | 'heavy'` in `src/router/Router.ts`). -/
inductive Tier where
  | router
  | primary
  | heavy
  deriving DecidableEq, Repr

/-- `Router.getEngineTier`: fixed total lookup from route class to tier. -/
def getEngineTier : RouteClass → Tier
  | RouteClass.direct_command => Tier.router
  | RouteClass.trivial => Tier.router
  | RouteClass.normal => Tier.primary
  | RouteClass.hard => Tier.heavy

example : (classify "hi").rclass = RouteClass.trivial := by rfl
example : (classify "").rclass = RouteClass.trivial := by rfl
example : (classify "turn on the lights").rclass = RouteClass.direct_command := by rfl
example : (classify "research").rclass = RouteClass.hard := by rfl
example : (classify "tell me a joke").rclass = RouteClass.normal := by rfl
example : (classify "          a").rclass = RouteClass.normal := by rfl
example : parseCommand "set temperature to 72" =
    some ⟨DeviceType.thermostat, "set_temperature", some 72⟩ := by rfl

/-- A generation event tag (`GenerationEvent` in `src/router/Router.ts`).
Wall-clock fields (`timestamp`, `ms`) are measurement-only and are not part of
the claims, so the embedding keeps the tag and the token text. -/
inductive GEvent where
  | first
  | token (text : String)
  | done
  deriving DecidableEq, Repr

/-- Caller-supplied generation parameters (`GenerationParams`). -/
structure GenerationParams where
  max_tokens : Option Nat := none
  ctx : Option Nat := none
  temperature : Option ℚ := none
  stop : Option (List String) := none
  deriving DecidableEq, Repr

/-- Per-tier model configuration (`ModelDef` in `src/policy/schema.ts`;
only the fields read by the dispatcher and engines are embedded). -/
structure ModelDef where
  max_tokens : Option Nat := none
  ctx : Option Nat := none
  temperature : Option ℚ := none
  candidates_cpu : Option (List String) := none
  deriving DecidableEq, Repr

/-- The dispatch-relevant projection of `PolicyConfig`
(`src/policy/schema.ts`): per-tier model defaults and the global policy
toggles.  The heavy endpoint is reflected by the optional heavy-engine
argument of the dispatcher, mirroring the `EngineSelector` constructor. -/
structure PolicyModel where
  models : Tier → ModelDef
  fallback_enabled : Bool
  log_routing_decisions : Bool

/-- Result of fully consuming one engine stream: the events it yielded, and
the error it raised after those events (if any).  This is the collected view
of an async generator: events already yielded stay delivered even when the
generator later throws. -/
structure EngineResult where
  events : List GEvent
  err : Option String
  deriving DecidableEq, Repr

/-- A local engine stream call: `(sessionId, prompt, params)`. -/
abbrev LocalEngineFun := String → String → GenerationParams → EngineResult

/-- A heavy engine stream call: `(prompt, params, modelId)`. -/
abbrev HeavyEngineFun := String → GenerationParams → String → EngineResult

/-- Result of one dispatcher call, with call counters for the two engines
(the spec makes the retry count observable via a call counter). -/
structure DResult where
  events : List GEvent
  err : Option String
  localCalls : Nat
  heavyCalls : Nat
  deriving DecidableEq, Repr

/-- Parameter merge of `EngineSelector.generateStream`: caller values win when
present, tier defaults fill the gaps, and `stop` is passed through unmerged. -/
def mergeParams (p : GenerationParams) (mc : ModelDef) : GenerationParams :=
  { max_tokens := match p.max_tokens with | some v => some v | none => mc.max_tokens
    ctx := match p.ctx with | some v => some v | none => mc.ctx
    temperature := match p.temperature with | some v => some v | none => mc.temperature
    stop := p.stop }

/-- Heavy model id selection:
`modelConfig.candidates_cpu?.[0] || 'mixtral:8x7b-instruct-q4_K_M'`
(`||` takes the default when the first candidate is absent or empty). -/
def pickModelId (mc : ModelDef) : String :=
  match mc.candidates_cpu with
  | some (c :: _) => if c = "" then "mixtral:8x7b-instruct-q4_K_M" else c
  | _ => "mixtral:8x7b-instruct-q4_K_M"

/-- Engine selection and invocation (`tier === 'heavy' && this.heavyEngine`
branch of `EngineSelector.generateStream`): the heavy engine is used only for
the heavy tier when configured, every other case uses the local engine. -/
def callSelected (localE : LocalEngineFun) (heavyE : Option HeavyEngineFun)
    (sess prompt : String) (fp : GenerationParams) (mc : ModelDef) (tier : Tier) : DResult :=
  match tier, heavyE with
  | Tier.heavy, some h =>
    let r := h prompt fp (pickModelId mc)
    ⟨r.events, r.err, 0, 1⟩
  | _, _ =>
    let r := localE sess prompt fp
    ⟨r.events, r.err, 1, 0⟩

/-- Steps 2-5 of `EngineSelector.generateStream`: tier resolution, parameter
merge, engine invocation, and the single-retry fallback policy.  Events
yielded by the failing stream were already relayed to the caller, so the
fallback's events are appended after them. -/
def dispatchEngine (pol : PolicyModel) (localE : LocalEngineFun)
    (heavyE : Option HeavyEngineFun) (sess prompt : String)
    (params : GenerationParams) (route : RouteResult) : DResult :=
  let tier := getEngineTier route.rclass
  let mc := pol.models tier
  let fp := mergeParams params mc
  let sel := callSelected localE heavyE sess prompt fp mc tier
  match sel.err with
  | none => sel
  | some e =>
    if pol.fallback_enabled = true ∧ tier ≠ Tier.primary then
      let r2 := localE sess prompt fp
      ⟨sel.events ++ r2.events, r2.err, sel.localCalls + 1, sel.heavyCalls⟩
    else
      ⟨sel.events, some e, sel.localCalls, sel.heavyCalls⟩

/-- `EngineSelector.generateStream` (`src/router/Router.ts`): classify, handle
an extracted device command (synthesizing a `first`/`token`/`done` stream on
success and falling through to generation on failure), otherwise dispatch to
an engine.  The device executor is the dispatcher's collaborator
(`DeviceActions.executeCommand`), abstracted as a function that either
returns the textual result or throws. -/
def dispatch (pol : PolicyModel) (localE : LocalEngineFun)
    (heavyE : Option HeavyEngineFun) (devExec : DeviceCommand → Except String String)
    (sess prompt : String) (params : GenerationParams) : DResult :=
  let route := classify prompt
  match route.deviceCommand with
  | some dc =>
    if route.rclass = RouteClass.direct_command then
      match devExec dc with
      | Except.ok result => ⟨[GEvent.first, GEvent.token result, GEvent.done], none, 0, 0⟩
      | Except.error _ => dispatchEngine pol localE heavyE sess prompt params route
    else dispatchEngine pol localE heavyE sess prompt params route
  | none => dispatchEngine pol localE heavyE sess prompt params route

/-- Effective generation caps of `LocalLlamaEngine.generateStream`
(`src/unnamed/part_002`, the `caps` object): the `max_tokens` handed to the
model is `Math.min(params.max_tokens ?? 128, 512)`. -/
structure LocalCaps where
  maxTokens : Nat
  temperature : ℚ
  stop : List String
  deriving DecidableEq, Repr

/-- The `caps` computation of `LocalLlamaEngine.generateStream`. -/
def localCaps (p : GenerationParams) : LocalCaps :=
  { maxTokens := min (p.max_tokens.getD 128) 512
    temperature := p.temperature.getD 0.2
    stop := p.stop.getD ["<|im_end|>", "<|im_start|>", "</s>", "\n\n", "assistant"] }

/-- Abstract outcome of one `LocalLlamaEngine.generateStream` call.
`preError` is an error thrown before generation (the dev-mode prompt-length
gate, model loading, or context creation), which escapes the generator before
any event is yielded.  `response` is the result of the `session.prompt` call:
`some r` when it returned text `r`, `none` when it threw — that exception is
caught and swallowed by the engine (`src/unnamed/part_002`, the try/catch
around `session.prompt`). -/
structure LocalOutcome where
  preError : Option String
  response : Option String
  deriving DecidableEq, Repr

/-- Behaviour model of `LocalLlamaEngine.generateStream`
(`src/unnamed/part_002`): on a pre-generation error nothing is yielded and the
error escapes; otherwise a truthy response yields `first` and one `token`, an
empty or failed response yields nothing, and in all those cases the stream
ends with a single `done` and no error. -/
def localStream (o : LocalOutcome) : EngineResult :=
  match o.preError with
  | some e => ⟨[], some e⟩
  | none =>
    match o.response with
    | some r =>
      if r = "" then ⟨[GEvent.done], none⟩
      else ⟨[GEvent.first, GEvent.token r, GEvent.done], none⟩
    | none => ⟨[GEvent.done], none⟩

/-- Abstract outcome of one `VllmEngine.generateStream` call: the non-empty
token texts streamed before completion or failure, and the error thrown by
the fetch/HTTP/stream machinery, if any. -/
structure VllmOutcome where
  tokens : List String
  failure : Option String
  deriving DecidableEq, Repr

/-- The `first`/`token` events produced by the vLLM streaming loop: `first` is
yielded just before the first token. -/
def vllmEvents : List String → List GEvent
  | [] => []
  | t :: ts => GEvent.first :: GEvent.token t :: ts.map GEvent.token

/-- Behaviour model of `VllmEngine.generateStream` (`src/unnamed/part_003`):
the `finally` block yields `done` even when the try block throws, so the
consumer receives `done` after the streamed tokens and the error (if any)
propagates only afterwards. -/
def vllmStream (o : VllmOutcome) : EngineResult :=
  ⟨vllmEvents o.tokens ++ [GEvent.done], o.failure⟩

/-- The dispatcher with the two engine adapters plugged in as their behaviour
models: the system as wired by `EngineSelector`. -/
def dispatchJarvis (pol : PolicyModel) (heavyConfigured : Bool)
    (hOut : VllmOutcome) (lOut : LocalOutcome)
    (devExec : DeviceCommand → Except String String)
    (sess prompt : String) (params : GenerationParams) : DResult :=
  dispatch pol (fun _ _ _ => localStream lOut)
    (if heavyConfigured then some (fun _ _ _ => vllmStream hOut) else none)
    devExec sess prompt params

/-- Tail of the event grammar: zero or more `token` events and then exactly
one terminal `done`. -/
def tokensThenDone : List GEvent → Bool
  | [GEvent.done] => true
  | GEvent.token _ :: rest => tokensThenDone rest
  | _ => false

/-- The event grammar of §3: `first? token* done` with exactly one `done`,
which is terminal. -/
def wellFormedStream : List GEvent → Bool
  | GEvent.first :: rest => tokensThenDone rest
  | l => tokensThenDone l

example : wellFormedStream [GEvent.first, GEvent.token "x", GEvent.done] = true := by rfl
example : wellFormedStream [GEvent.done] = true := by rfl
example : wellFormedStream [GEvent.done, GEvent.first, GEvent.token "x", GEvent.done] = false := by rfl

/-- Message role (`SessionContext.messages[].role`). -/
inductive Role where
  | system
  | user
  | assistant
  deriving DecidableEq, Repr

/-- One transcript message (`src/session/SessionManager.ts`). -/
structure Message where
  role : Role
  content : String
  timestamp : Nat
  deriving DecidableEq, Repr

/-- One transcript session (`SessionContext` in `src/session/SessionManager.ts`). -/
structure SessionContext where
  id : String
  messages : List Message
  createdAt : Nat
  lastAccessedAt : Nat
  deriving DecidableEq, Repr

/-- The transcript registry: a JS `Map` in insertion order, embedded as an
association list whose keys are unique by construction. -/
abbrev SessionMap := List (String × SessionContext)

/-- `SessionManager.maxSessions`. -/
def maxSessions : Nat := 100

/-- `SessionManager.sessionTimeoutMs` (30 minutes). -/
def sessionTimeoutMs : Nat := 30 * 60 * 1000

/-- `SessionManager.systemPrompt` (the fixed persona seed message). -/
def systemPrompt : String :=
  "You are JARVIS, a personal AI assistant. You are helpful, concise, and professional.\nNever reference Tony Stark, Iron Man, Marvel characters, or fictional scenarios. You assist real users with real tasks.\nKeep responses brief and focused. Remember user preferences and names when told."

/-- `Map.get` on the embedded registry. -/
def lookupSM (s : SessionMap) (id : String) : Option SessionContext :=
  (s.find? (fun e => e.1 = id)).map (fun e => e.2)

/-- JS `Array.prototype.sort` is a stable comparison sort; this structural
insertion sort embeds it.  None of the verified properties depend on the
order of ties. -/
def insertLe (le : α → α → Bool) (a : α) : List α → List α
  | [] => [a]
  | b :: bs => if le a b then a :: b :: bs else b :: insertLe le a bs

/-- Sort a list with the comparison `le` (model of `Array.prototype.sort`). -/
def sortByLe (le : α → α → Bool) : List α → List α
  | [] => []
  | a :: as => insertLe le a (sortByLe le as)

/-- The expired sessions found by `SessionManager.cleanup`
(`now - lastAccessedAt > sessionTimeoutMs`). -/
def expiredOf (now : Nat) (s : SessionMap) : SessionMap :=
  s.filter (fun e => sessionTimeoutMs < now - e.2.lastAccessedAt)

/-- The ids collected for deletion by `SessionManager.cleanup`: every expired
session and, if the registry would still be over capacity, the
least-recently-accessed sessions down to capacity. -/
def toDeleteOf (now : Nat) (s : SessionMap) : List String :=
  if maxSessions < s.length - ((expiredOf now s).map (fun e => e.1)).length then
    (expiredOf now s).map (fun e => e.1) ++
      ((sortByLe (fun a b => a.2.lastAccessedAt ≤ b.2.lastAccessedAt) s).take
        (s.length - ((expiredOf now s).map (fun e => e.1)).length - maxSessions)).map
        (fun e => e.1)
  else (expiredOf now s).map (fun e => e.1)

/-- `SessionManager.cleanup` body, run after every creation: no-op at or
below capacity; otherwise delete every collected id (a filter over the
unique keys, matching `Map.delete` per id). -/
def cleanupSM (now : Nat) (s : SessionMap) : SessionMap :=
  if s.length ≤ maxSessions then s
  else s.filter (fun e => !(toDeleteOf now s).contains e.1)

/-- `SessionManager.getOrCreate`: refresh `lastAccessedAt` on a hit; on a miss
insert a session seeded with the system message and run `cleanup`. -/
def getOrCreate (now : Nat) (sessionId : String) (s : SessionMap) : SessionMap :=
  match lookupSM s sessionId with
  | some _ =>
    s.map (fun e => if e.1 = sessionId then (e.1, { e.2 with lastAccessedAt := now }) else e)
  | none =>
    let sess : SessionContext :=
      { id := sessionId
        messages := [⟨Role.system, systemPrompt, now⟩]
        createdAt := now
        lastAccessedAt := now }
    cleanupSM now (s ++ [(sessionId, sess)])

/-- Shared body of `appendUser`/`appendAssistant`: `getOrCreate`, then push a
timestamped message onto that session's transcript. -/
def appendMessage (role : Role) (now : Nat) (sessionId content : String)
    (s : SessionMap) : SessionMap :=
  let s1 := getOrCreate now sessionId s
  s1.map (fun e =>
    if e.1 = sessionId then
      (e.1, { e.2 with messages := e.2.messages ++ [⟨role, content, now⟩] })
    else e)

/-- `SessionManager.reset`: delete exactly that session id. -/
def resetSM (sessionId : String) (s : SessionMap) : SessionMap :=
  s.filter (fun e => e.1 ≠ sessionId)

/-- The public `SessionManager` operations named by the capacity invariant. -/
inductive SMOp where
  | getOrCreate (id : String)
  | appendUser (id content : String)
  | appendAssistant (id content : String)
  | reset (id : String)

/-- Run one public operation at wall-clock time `now`. -/
def applySMOp (now : Nat) (op : SMOp) (s : SessionMap) : SessionMap :=
  match op with
  | SMOp.getOrCreate id => getOrCreate now id s
  | SMOp.appendUser id content => appendMessage Role.user now id content s
  | SMOp.appendAssistant id content => appendMessage Role.assistant now id content s
  | SMOp.reset id => resetSM id s

/-- The llama generation-context registry (`llamaSessions` in
`src/session/SessionManager.ts`): session id to context/chat pair, insertion
ordered.  `γ` and `δ` are the engine-private context and chat types. -/
abbrev LlamaMap (γ δ : Type) := List (String × γ × δ)

/-- `maxContexts`: the literal `50` in `getSession`. -/
def maxContexts : Nat := 50

/-- Result of one `getSession` call: the returned pair, the updated registry,
and whether the two factories were invoked (a cache miss). -/
structure GSResult (γ δ : Type) where
  context : γ
  chat : δ
  state : LlamaMap γ δ
  invoked : Bool

/-- `getSession` (`src/session/SessionManager.ts`): return the cached pair if
present; otherwise run the two factories, append the pair, and if the
registry now exceeds capacity delete the single first-inserted entry. -/
def getSession (sessionId : String) (createCtx : Unit → γ) (createChat : γ → δ)
    (m : LlamaMap γ δ) : GSResult γ δ :=
  match (m.find? (fun e => e.1 = sessionId)).map (fun e => e.2) with
  | some p => ⟨p.1, p.2, m, false⟩
  | none =>
    let context := createCtx ()
    let chat := createChat context
    let m1 := m ++ [(sessionId, context, chat)]
    let m2 :=
      if maxContexts < m1.length then
        match m1.head? with
        | some oldest => m1.filter (fun e => e.1 ≠ oldest.1)
        | none => m1
      else m1
    ⟨context, chat, m2, true⟩

/-- Lookup in the llama registry. -/
def lookupLS (m : LlamaMap γ δ) (id : String) : Option (γ × δ) :=
  (m.find? (fun e => e.1 = id)).map (fun e => e.2)

/-- The combined per-process session state: the `SessionManager` transcript
registry and the module-level llama registry live in two unrelated stores. -/
structure SysState (γ δ : Type) where
  transcripts : SessionMap
  llama : LlamaMap γ δ

/-- `SessionManager.reset` at system level: it only touches the transcript
registry (`this.sessions.delete`), never the llama registry. -/
def resetSys (sessionId : String) (st : SysState γ δ) : SysState γ δ :=
  { st with transcripts := resetSM sessionId st.transcripts }

/-- `getSession` at system level: it only touches the llama registry. -/
def getSessionSys (sessionId : String) (createCtx : Unit → γ) (createChat : γ → δ)
    (st : SysState γ δ) : SysState γ δ :=
  { st with llama := (getSession sessionId createCtx createChat st.llama).state }

theorem length_insertLe (le : α → α → Bool) (a : α) (l : List α) :
    (insertLe le a l).length = l.length + 1 := by
  induction l with
  | nil => rfl
  | cons b bs ih =>
    simp only [insertLe]
    split
    · simp
    · simp [ih]

theorem length_sortByLe (le : α → α → Bool) (l : List α) :
    (sortByLe le l).length = l.length := by
  induction l with
  | nil => rfl
  | cons a as ih => simp [sortByLe, length_insertLe, ih]

theorem mem_insertLe {le : α → α → Bool} {a b : α} {l : List α} :
    b ∈ insertLe le a l ↔ b = a ∨ b ∈ l := by
  induction l with
  | nil => simp [insertLe]
  | cons c cs ih =>
    simp only [insertLe]
    split
    · simp [List.mem_cons]
    · simp only [List.mem_cons, ih]
      tauto

theorem mem_sortByLe {le : α → α → Bool} {b : α} {l : List α} :
    b ∈ sortByLe le l ↔ b ∈ l := by
  induction l with
  | nil => simp [sortByLe]
  | cons a as ih => simp [sortByLe, mem_insertLe, ih]

theorem find?_key_eq_none {α : Type _} {s : List (String × α)} {k : String} :
    s.find? (fun e => e.1 = k) = none ↔ k ∉ s.map Prod.fst := by
  rw [List.find?_eq_none]
  constructor
  · intro h hk
    rcases List.mem_map.mp hk with ⟨e, he, hek⟩
    exact h e he (by simp [hek])
  · intro h e he
    simp only [decide_eq_true_eq]
    intro hek
    exact h (List.mem_map.mpr ⟨e, he, hek⟩)
theorem length_filter_key_ne {α : Type _} (s : List (String × α)) (k : String)
    (hnd : (s.map Prod.fst).Nodup) (hk : k ∈ s.map Prod.fst) :
    (s.filter (fun e => e.1 ≠ k)).length + 1 = s.length := by
  induction s with
  | nil => simp at hk
  | cons a t ih =>
    simp only [List.map_cons, List.nodup_cons] at hnd
    by_cases hak : a.1 = k
    · have hfilter : t.filter (fun e => decide (e.1 ≠ k)) = t := by
        rw [List.filter_eq_self]
        intro x hx
        simp only [decide_eq_true_eq]
        intro hxk
        exact hnd.1 (List.mem_map.mpr ⟨x, hx, hxk.trans hak.symm⟩)
      rw [List.filter_cons, if_neg (by simp [hak]), hfilter]
      simp
    · have hk' : k ∈ t.map Prod.fst := by
        rw [List.map_cons, List.mem_cons] at hk
        rcases hk with h | h
        · exact absurd h.symm hak
        · exact h
      have := ih hnd.2 hk'
      rw [List.filter_cons, if_pos (by simp [hak])]
      simp only [List.length_cons]
      omega

theorem find?_filter_key_ne {α : Type _} (s : List (String × α)) (k k' : String)
    (hkk : k' ≠ k) :
    (s.filter (fun e => e.1 ≠ k)).find? (fun e => e.1 = k') =
      s.find? (fun e => e.1 = k') := by
  induction s with
  | nil => rfl
  | cons a t ih =>
    rw [List.filter_cons]
    by_cases hak : a.1 = k
    · rw [if_neg (by simp [hak])]
      rw [List.find?_cons_of_neg _ (by simp only [decide_eq_true_eq]; intro h; exact hkk (hak ▸ h ▸ rfl))]
      exact ih
    · rw [if_pos (by simp [hak])]
      by_cases ha' : a.1 = k'
      · rw [List.find?_cons_of_pos _ (by simp [ha']), List.find?_cons_of_pos _ (by simp [ha'])]
      · rw [List.find?_cons_of_neg _ (by simp [ha']), List.find?_cons_of_neg _ (by simp [ha'])]
        exact ih

theorem lookupSM_eq_none {s : SessionMap} {k : String} :
    lookupSM s k = none ↔ k ∉ s.map Prod.fst := by
  unfold lookupSM
  rw [Option.map_eq_none']
  exact find?_key_eq_none

theorem cleanupSM_of_le {now : Nat} {s : SessionMap} (h : s.length ≤ maxSessions) :
    cleanupSM now s = s := by
  simp [cleanupSM, h]

theorem cleanupSM_sublist (now : Nat) (s : SessionMap) : (cleanupSM now s).Sublist s := by
  unfold cleanupSM
  split
  · exact List.Sublist.refl s
  · exact List.filter_sublist s

theorem exists_deleted_of_over {now : Nat} {s : SessionMap}
    (h : s.length = maxSessions + 1) : ∃ e ∈ s, e.1 ∈ toDeleteOf now s := by
  unfold toDeleteOf
  cases hexp : expiredOf now s with
  | cons e es =>
    refine ⟨e, ?_, ?_⟩
    · have : e ∈ expiredOf now s := by rw [hexp]; exact List.mem_cons_self e es
      exact List.mem_of_mem_filter this
    · have hmem : e.1 ∈ (e :: es).map (fun e => e.1) :=
        List.mem_map.mpr ⟨e, List.mem_cons_self e es, rfl⟩
      split
      · exact List.mem_append_left _ hmem
      · exact hmem
  | nil =>
    have hlen : (sortByLe (fun a b => a.2.lastAccessedAt ≤ b.2.lastAccessedAt) s).length =
        maxSessions + 1 := by rw [length_sortByLe, h]
    cases hsort : sortByLe (fun a b => a.2.lastAccessedAt ≤ b.2.lastAccessedAt) s with
    | nil => rw [hsort] at hlen; simp at hlen
    | cons x rest =>
      refine ⟨x, ?_, ?_⟩
      · have : x ∈ sortByLe (fun a b => a.2.lastAccessedAt ≤ b.2.lastAccessedAt) s := by
          rw [hsort]; exact List.mem_cons_self x rest
        exact mem_sortByLe.mp this
      · simp only [List.map_nil, List.length_nil, Nat.sub_zero]
        rw [if_pos (by omega)]
        have hexcess : s.length - maxSessions = 1 := by omega
        rw [hexcess, List.take_one]
        simp

theorem cleanupSM_le {now : Nat} {s : SessionMap} (h : s.length ≤ maxSessions + 1) :
    (cleanupSM now s).length ≤ maxSessions := by
  by_cases h1 : s.length ≤ maxSessions
  · rw [cleanupSM_of_le h1]; exact h1
  · have hlen : s.length = maxSessions + 1 := by omega
    unfold cleanupSM
    rw [if_neg h1]
    rcases @exists_deleted_of_over now s hlen with ⟨e, he, hdel⟩
    have : (s.filter (fun e => !(toDeleteOf now s).contains e.1)).length < s.length := by
      rw [List.length_filter_lt_length_iff_exists]
      exact ⟨e, he, by simp [hdel]⟩
    omega

theorem expiredOf_zero (s : SessionMap) : expiredOf 0 s = [] := by
  unfold expiredOf
  rw [List.filter_eq_nil_iff]
  intro e _
  simp [sessionTimeoutMs, Nat.zero_sub]

theorem cleanupSM_zero_exact {s : SessionMap} (hnd : (s.map Prod.fst).Nodup)
    (h : s.length = maxSessions + 1) : (cleanupSM 0 s).length = maxSessions := by
  have htd : ∃ x, x ∈ s ∧ toDeleteOf 0 s = [x.1] := by
    unfold toDeleteOf
    rw [expiredOf_zero]
    simp only [List.map_nil, List.length_nil, Nat.sub_zero]
    rw [if_pos (by omega)]
    have hexcess : s.length - maxSessions = 1 := by omega
    rw [hexcess, List.take_one]
    cases hsort : sortByLe (fun a b => a.2.lastAccessedAt ≤ b.2.lastAccessedAt) s with
    | nil =>
      have := length_sortByLe (fun a b : String × SessionContext =>
        decide (a.2.lastAccessedAt ≤ b.2.lastAccessedAt)) s
      rw [hsort] at this
      simp at this
      omega
    | cons x rest =>
      refine ⟨x, ?_, by simp⟩
      have : x ∈ sortByLe (fun a b => a.2.lastAccessedAt ≤ b.2.lastAccessedAt) s := by
        rw [hsort]; exact List.mem_cons_self x rest
      exact mem_sortByLe.mp this
  rcases htd with ⟨x, hx, htd⟩
  unfold cleanupSM
  rw [if_neg (by omega), htd]
  have hconv : s.filter (fun e => !([x.1] : List String).contains e.1) =
      s.filter (fun e => e.1 ≠ x.1) := by
    apply List.filter_congr
    intro e _
    simp
  rw [hconv]
  have hkey : x.1 ∈ s.map Prod.fst := List.mem_map.mpr ⟨x, hx, rfl⟩
  have := length_filter_key_ne s x.1 hnd hkey
  omega

theorem getOrCreate_length_le (now : Nat) (k : String) {s : SessionMap}
    (h : s.length ≤ maxSessions) : (getOrCreate now k s).length ≤ maxSessions := by
  unfold getOrCreate
  cases hlk : lookupSM s k with
  | some v => simpa using h
  | none =>
    apply cleanupSM_le
    simp
    omega

theorem applySMOp_length_le (now : Nat) (op : SMOp) {s : SessionMap}
    (h : s.length ≤ maxSessions) : (applySMOp now op s).length ≤ maxSessions := by
  cases op with
  | getOrCreate id => exact getOrCreate_length_le now id h
  | appendUser id content =>
    simp only [applySMOp, appendMessage, List.length_map]
    exact getOrCreate_length_le now id h
  | appendAssistant id content =>
    simp only [applySMOp, appendMessage, List.length_map]
    exact getOrCreate_length_le now id h
  | reset id =>
    exact le_trans (List.length_filter_le _ s) h

/-- The freshly created session record of `getOrCreate`. -/
def seedSession (now : Nat) (k : String) : SessionContext :=
  { id := k
    messages := [⟨Role.system, systemPrompt, now⟩]
    createdAt := now
    lastAccessedAt := now }

theorem getOrCreate_zero_fresh {s : SessionMap} {k : String}
    (hnd : (s.map Prod.fst).Nodup) (hk : k ∉ s.map Prod.fst)
    (h : s.length ≤ maxSessions) :
    (getOrCreate 0 k s).length = min (s.length + 1) maxSessions ∧
    ((getOrCreate 0 k s).map Prod.fst).Nodup ∧
    ∀ j, j ∉ s.map Prod.fst → j ≠ k → j ∉ (getOrCreate 0 k s).map Prod.fst := by
  have hlk : lookupSM s k = none := lookupSM_eq_none.mpr hk
  have hgo : getOrCreate 0 k s = cleanupSM 0 (s ++ [(k, seedSession 0 k)]) := by
    unfold getOrCreate seedSession
    rw [hlk]
  have hkeys : (s ++ [(k, seedSession 0 k)]).map Prod.fst = s.map Prod.fst ++ [k] := by simp
  have hnd' : ((s ++ [(k, seedSession 0 k)]).map Prod.fst).Nodup := by
    rw [hkeys]
    simp [List.nodup_append, hnd, hk]
  by_cases hcap : s.length + 1 ≤ maxSessions
  · rw [hgo, cleanupSM_of_le (by simpa using hcap)]
    refine ⟨by simp; omega, hnd', ?_⟩
    intro j hj hjk
    rw [hkeys]
    simp only [List.mem_append, List.mem_singleton]
    rintro (hmem | hmem)
    · exact hj hmem
    · exact hjk hmem
  · have hlen : s.length = maxSessions := by omega
    have hlen' : (s ++ [(k, seedSession 0 k)]).length = maxSessions + 1 := by simp [hlen]
    refine ⟨?_, ?_, ?_⟩
    · rw [hgo, cleanupSM_zero_exact hnd' hlen']
      omega
    · rw [hgo]
      have hsub := (cleanupSM_sublist 0 (s ++ [(k, seedSession 0 k)])).map Prod.fst
      exact hnd'.sublist hsub
    · intro j hj hjk
      rw [hgo]
      intro hmem
      have hsub := (cleanupSM_sublist 0 (s ++ [(k, seedSession 0 k)])).map Prod.fst
      have hj' : j ∈ (s ++ [(k, seedSession 0 k)]).map Prod.fst := hsub.subset hmem
      rw [hkeys] at hj'
      rcases List.mem_append.mp hj' with hmem' | hmem'
      · exact hj hmem'
      · exact hjk (List.mem_singleton.mp hmem')

theorem foldl_getOrCreate_zero (ids : List String) :
    ∀ s : SessionMap, ids.Nodup → (∀ i ∈ ids, i ∉ s.map Prod.fst) →
    (s.map Prod.fst).Nodup → s.length ≤ maxSessions →
    (ids.foldl (fun st i => getOrCreate 0 i st) s).length =
      min (s.length + ids.length) maxSessions := by
  induction ids with
  | nil =>
    intro s _ _ _ h
    simp only [List.foldl_nil, List.length_nil]
    omega
  | cons i rest ih =>
    intro s hnd hfresh hkeys h
    simp only [List.foldl_cons]
    rw [List.nodup_cons] at hnd
    obtain ⟨hlen', hnd', hpres⟩ :=
      getOrCreate_zero_fresh hkeys (hfresh i (List.mem_cons_self i rest)) h
    have hfresh' : ∀ j ∈ rest, j ∉ (getOrCreate 0 i s).map Prod.fst := by
      intro j hj
      refine hpres j (hfresh j (List.mem_cons_of_mem i hj)) ?_
      intro hji
      exact hnd.1 (hji ▸ hj)
    have hle' : (getOrCreate 0 i s).length ≤ maxSessions := by omega
    rw [ih _ hnd.2 hfresh' hnd' hle', hlen']
    simp only [List.length_cons]
    omega

theorem getSession_state_le {γ δ : Type} (cc : Unit → γ) (ch : γ → δ)
    (id : String) (m : LlamaMap γ δ) (h : m.length ≤ maxContexts) :
    (getSession id cc ch m).state.length ≤ maxContexts := by
  unfold getSession
  cases hf : (m.find? (fun e => e.1 = id)).map (fun e => e.2) with
  | some p => simpa using h
  | none =>
    simp only
    cases m with
    | nil =>
      simp [maxContexts]
    | cons e0 t =>
      simp only [List.cons_append, List.head?_cons]
      split
      · have hlt : ((e0 :: (t ++ [(id, cc (), ch (cc ()))])).filter
            (fun e => e.1 ≠ e0.1)).length <
            (e0 :: (t ++ [(id, cc (), ch (cc ()))])).length := by
          rw [List.length_filter_lt_length_iff_exists]
          exact ⟨e0, List.mem_cons_self _ _, by simp⟩
        have hc : (e0 :: (t ++ [(id, cc (), ch (cc ()))])).length = t.length + 2 := by
          simp
        simp only [List.length_cons] at h
        omega
      · simp only [List.length_cons, List.length_append, List.length_cons] at *
        omega

theorem getSession_evict {γ δ : Type} (cc : Unit → γ) (ch : γ → δ)
    (e0 : String × γ × δ) (t : LlamaMap γ δ) (id : String)
    (hnd : ((e0 :: t).map Prod.fst).Nodup)
    (hlen : (e0 :: t).length = maxContexts)
    (hid : id ∉ (e0 :: t).map Prod.fst) :
    getSession id cc ch (e0 :: t) =
      ⟨cc (), ch (cc ()), t ++ [(id, cc (), ch (cc ()))], true⟩ := by
  have hlk : ((e0 :: t).find? (fun e => e.1 = id)) = none := find?_key_eq_none.mpr hid
  have hne : id ≠ e0.1 := by
    intro hcontra
    exact hid (hcontra ▸ List.mem_map.mpr ⟨e0, List.mem_cons_self _ _, rfl⟩)
  simp only [List.map_cons, List.nodup_cons] at hnd
  unfold getSession
  rw [hlk]
  simp only [Option.map_none', List.cons_append, List.length_cons, List.head?_cons]
  rw [if_pos (by simp only [List.length_append, List.length_cons] at hlen ⊢; omega)]
  have hfe0 : (e0 :: (t ++ [(id, cc (), ch (cc ()))])).filter (fun e => e.1 ≠ e0.1) =
      t ++ [(id, cc (), ch (cc ()))] := by
    rw [List.filter_cons, if_neg (by simp)]
    rw [List.filter_eq_self]
    intro e he
    simp only [decide_eq_true_eq]
    rcases List.mem_append.mp he with hmem | hmem
    · intro hk
      exact hnd.1 (List.mem_map.mpr ⟨e, hmem, hk⟩)
    · rw [List.mem_singleton.mp hmem]
      simpa using hne
  rw [hfe0]

theorem lookupSM_resetSM_self (s : SessionMap) (id : String) :
    lookupSM (resetSM id s) id = none := by
  unfold lookupSM resetSM
  rw [Option.map_eq_none', List.find?_eq_none]
  intro e he
  have := List.of_mem_filter he
  simp only [decide_eq_true_eq] at this ⊢
  exact this

theorem lookupSM_resetSM_other (s : SessionMap) (id id' : String) (h : id' ≠ id) :
    lookupSM (resetSM id s) id' = lookupSM s id' := by
  unfold lookupSM resetSM
  rw [find?_filter_key_ne s id id' h]

theorem dispatchEngine_ok (pol : PolicyModel) (localE : LocalEngineFun)
    (heavyE : Option HeavyEngineFun) (sess prompt : String) (params : GenerationParams)
    (route : RouteResult)
    (hok : (callSelected localE heavyE sess prompt
        (mergeParams params (pol.models (getEngineTier route.rclass)))
        (pol.models (getEngineTier route.rclass)) (getEngineTier route.rclass)).err = none) :
    dispatchEngine pol localE heavyE sess prompt params route =
      callSelected localE heavyE sess prompt
        (mergeParams params (pol.models (getEngineTier route.rclass)))
        (pol.models (getEngineTier route.rclass)) (getEngineTier route.rclass) := by
  simp only [dispatchEngine]
  rw [hok]

theorem dispatchEngine_fail_fb (pol : PolicyModel) (localE : LocalEngineFun)
    (heavyE : Option HeavyEngineFun) (sess prompt : String) (params : GenerationParams)
    (route : RouteResult) (e : String)
    (hfail : (callSelected localE heavyE sess prompt
        (mergeParams params (pol.models (getEngineTier route.rclass)))
        (pol.models (getEngineTier route.rclass)) (getEngineTier route.rclass)).err = some e)
    (hfb : pol.fallback_enabled = true)
    (hnp : getEngineTier route.rclass ≠ Tier.primary) :
    dispatchEngine pol localE heavyE sess prompt params route =
      ⟨(callSelected localE heavyE sess prompt
          (mergeParams params (pol.models (getEngineTier route.rclass)))
          (pol.models (getEngineTier route.rclass)) (getEngineTier route.rclass)).events ++
        (localE sess prompt
          (mergeParams params (pol.models (getEngineTier route.rclass)))).events,
       (localE sess prompt
          (mergeParams params (pol.models (getEngineTier route.rclass)))).err,
       (callSelected localE heavyE sess prompt
          (mergeParams params (pol.models (getEngineTier route.rclass)))
          (pol.models (getEngineTier route.rclass)) (getEngineTier route.rclass)).localCalls + 1,
       (callSelected localE heavyE sess prompt
          (mergeParams params (pol.models (getEngineTier route.rclass)))
          (pol.models (getEngineTier route.rclass)) (getEngineTier route.rclass)).heavyCalls⟩ := by
  simp only [dispatchEngine]
  rw [hfail]
  simp only []
  rw [if_pos ⟨hfb, hnp⟩]

theorem dispatchEngine_fail_nofb (pol : PolicyModel) (localE : LocalEngineFun)
    (heavyE : Option HeavyEngineFun) (sess prompt : String) (params : GenerationParams)
    (route : RouteResult) (e : String)
    (hfail : (callSelected localE heavyE sess prompt
        (mergeParams params (pol.models (getEngineTier route.rclass)))
        (pol.models (getEngineTier route.rclass)) (getEngineTier route.rclass)).err = some e)
    (hnofb : ¬(pol.fallback_enabled = true ∧ getEngineTier route.rclass ≠ Tier.primary)) :
    dispatchEngine pol localE heavyE sess prompt params route =
      ⟨(callSelected localE heavyE sess prompt
          (mergeParams params (pol.models (getEngineTier route.rclass)))
          (pol.models (getEngineTier route.rclass)) (getEngineTier route.rclass)).events,
       some e,
       (callSelected localE heavyE sess prompt
          (mergeParams params (pol.models (getEngineTier route.rclass)))
          (pol.models (getEngineTier route.rclass)) (getEngineTier route.rclass)).localCalls,
       (callSelected localE heavyE sess prompt
          (mergeParams params (pol.models (getEngineTier route.rclass)))
          (pol.models (getEngineTier route.rclass)) (getEngineTier route.rclass)).heavyCalls⟩ := by
  simp only [dispatchEngine]
  rw [hfail]
  simp only []
  rw [if_neg hnofb]

theorem tokensThenDone_map (ts : List String) :
    tokensThenDone (ts.map GEvent.token ++ [GEvent.done]) = true := by
  induction ts with
  | nil => rfl
  | cons t rest ih =>
    simpa [tokensThenDone] using ih

theorem wf_vllmEvents (ts : List String) :
    wellFormedStream (vllmEvents ts ++ [GEvent.done]) = true := by
  cases ts with
  | nil => rfl
  | cons t rest =>
    show tokensThenDone (GEvent.token t :: (rest.map GEvent.token ++ [GEvent.done])) = true
    simpa [tokensThenDone] using tokensThenDone_map rest

theorem localStream_err_none (lResp : Option String) :
    (localStream ⟨none, lResp⟩).err = none := by
  cases lResp with
  | none => rfl
  | some r =>
    by_cases hr : r = "" <;> simp [localStream, hr]

theorem localStream_wf (lResp : Option String) :
    wellFormedStream (localStream ⟨none, lResp⟩).events = true := by
  cases lResp with
  | none => rfl
  | some r =>
    by_cases hr : r = "" <;> simp [localStream, hr, wellFormedStream, tokensThenDone]

theorem classify_dc_none {s : String}
    (h : (classify s).rclass ≠ RouteClass.direct_command) :
    (classify s).deviceCommand = none := by
  cases hpc : parseCommand s with
  | some dc =>
    exfalso
    apply h
    unfold classify
    rw [hpc]
  | none =>
    simp only [classify, hpc]
    repeat' split
    all_goals rfl

/-- Claim C10: for every call to `LocalLlamaEngine.generateStream`, the
effective `max_tokens` handed to the model is
`min(params.max_tokens ?? 128, 512)`: it never exceeds 512 and defaults to
128 when the caller supplies none. -/
theorem C10_local_max_tokens :
    ∀ p : GenerationParams,
      (localCaps p).maxTokens = min (p.max_tokens.getD 128) 512 ∧
      (localCaps p).maxTokens ≤ 512 ∧
      (p.max_tokens = none → (localCaps p).maxTokens = 128) ∧
      ∀ n : Nat, p.max_tokens = some n → (localCaps p).maxTokens = min n 512 := by
  intro p
  refine ⟨rfl, Nat.min_le_right _ _, ?_, ?_⟩
  · intro h
    simp [localCaps, h]
  · intro n h
    simp [localCaps, h]

/-- Witness for C10 at concrete parameters: absent `max_tokens` gives 128,
and an oversized request is capped at 512. -/
theorem C10_local_max_tokens_witness :
    (localCaps ⟨none, none, none, none⟩).maxTokens = 128 ∧
    (localCaps ⟨some 4096, none, none, none⟩).maxTokens = min 4096 512 ∧
    (localCaps ⟨some 4096, none, none, none⟩).maxTokens ≤ 512 :=
  ⟨(C10_local_max_tokens ⟨none, none, none, none⟩).2.2.1 rfl,
   (C10_local_max_tokens ⟨some 4096, none, none, none⟩).2.2.2 4096 rfl,
   (C10_local_max_tokens ⟨some 4096, none, none, none⟩).2.1⟩

/-- Claim C5: `classify` terminates on every input and returns exactly one
`RouteResult` whose class is one of the four route classes and whose
confidence lies in `[0, 1]`, and it is pure: equal inputs give equal
decisions. -/
theorem C5_classify_total :
    ∀ s : String,
      (∃! r : RouteResult, classify s = r) ∧
      (∀ t : String, t = s → classify t = classify s) ∧
      0 ≤ (classify s).confidence ∧ (classify s).confidence ≤ 1 ∧
      ((classify s).rclass = RouteClass.direct_command ∨
       (classify s).rclass = RouteClass.trivial ∨
       (classify s).rclass = RouteClass.normal ∨
       (classify s).rclass = RouteClass.hard) := by
  intro s
  have hbounds : 0 ≤ (classify s).confidence ∧ (classify s).confidence ≤ 1 := by
    simp only [classify]
    split
    · norm_num
    · split_ifs <;> norm_num
  refine ⟨⟨classify s, rfl, fun r h => h.symm⟩, fun t ht => ht ▸ rfl,
    hbounds.1, hbounds.2, ?_⟩
  cases h : (classify s).rclass <;> simp

/-- Witness for C5 at the concrete input "hi". -/
theorem C5_classify_total_witness :
    (∃! r : RouteResult, classify "hi" = r) ∧
    (∀ t : String, t = "hi" → classify t = classify "hi") ∧
    0 ≤ (classify "hi").confidence ∧ (classify "hi").confidence ≤ 1 ∧
    ((classify "hi").rclass = RouteClass.direct_command ∨
     (classify "hi").rclass = RouteClass.trivial ∨
     (classify "hi").rclass = RouteClass.normal ∨
     (classify "hi").rclass = RouteClass.hard) :=
  C5_classify_total "hi"

/-- Claim C6 (amended): `classify` keyword and prefix matching is
case-insensitive on the lower-cased, trimmed input, but the two length rules
read the raw (untrimmed) `input.length`.  For every input matching no device
pattern and containing no direct-command or complexity keyword whose RAW
length is below 10, `classify` returns `trivial` with confidence 0.7; in
particular `classify "hi"` and `classify ""` return `trivial`.  (The frozen
claim used the trimmed length; the counterexample shows the code uses the
raw length.) -/
theorem C6_short_input :
    (∀ s : String,
      parseCommand s = none →
      directCommandKeywords.any (fun k => includesStr (trimChars (lowerChars s.data)) k) = false →
      hardKeywords.any (fun k => includesStr (trimChars (lowerChars s.data)) k) = false →
      s.data.length < 10 →
      classify s = ⟨RouteClass.trivial, 0.7, "Very short input likely trivial", none⟩) ∧
    (classify "hi").rclass = RouteClass.trivial ∧
    (classify "hi").confidence = 0.7 ∧
    (classify "").rclass = RouteClass.trivial := by
  refine ⟨?_, rfl, rfl, rfl⟩
  intro s hpc hdk hhk hlen
  simp only [classify, hpc, hdk, hhk]
  rw [if_pos hlen]
  rfl

/-- Counterexample for claim C6 as frozen: the input of ten spaces followed
by "a" matches no device pattern and no keyword and its TRIMMED length is 1,
yet `classify` returns `normal`, not `trivial`, because the length rule reads
the raw length 11. -/
theorem C6_short_input_cex :
    parseCommand "          a" = none ∧
    directCommandKeywords.any
      (fun k => includesStr (trimChars (lowerChars ("          a").data)) k) = false ∧
    hardKeywords.any
      (fun k => includesStr (trimChars (lowerChars ("          a").data)) k) = false ∧
    (trimChars (lowerChars ("          a").data)).length < 10 ∧
    (classify "          a").rclass ≠ RouteClass.trivial ∧
    (classify "          a").rclass = RouteClass.normal :=
  ⟨rfl, rfl, rfl, by decide, by decide, rfl⟩

/-- Witness for C6 at the concrete input "hi". -/
theorem C6_short_input_witness :
    classify "hi" = ⟨RouteClass.trivial, 0.7, "Very short input likely trivial", none⟩ :=
  C6_short_input.1 "hi" rfl rfl rfl (by decide)

/-- Claim C1: after every public `SessionManager` operation (`getOrCreate`,
`appendUser`, `appendAssistant`, `reset`) the transcript registry holds at
most `maxSessions` (100) sessions, enforced synchronously by the `cleanup`
run inside the operation; and after N `getOrCreate` calls with N > 100
distinct ids the registry size is exactly 100. -/
theorem C1_transcript_capacity :
    (∀ (now : Nat) (op : SMOp) (s : SessionMap),
       s.length ≤ maxSessions → (applySMOp now op s).length ≤ maxSessions) ∧
    (∀ ops : List (Nat × SMOp),
       (ops.foldl (fun st p => applySMOp p.1 p.2 st) ([] : SessionMap)).length ≤
         maxSessions) ∧
    (∀ ids : List String, ids.Nodup → maxSessions < ids.length →
       (ids.foldl (fun st i => getOrCreate 0 i st) ([] : SessionMap)).length =
         maxSessions) := by
  refine ⟨fun now op s h => applySMOp_length_le now op h, ?_, ?_⟩
  · intro ops
    have hgen : ∀ (l : List (Nat × SMOp)) (s : SessionMap), s.length ≤ maxSessions →
        (l.foldl (fun st p => applySMOp p.1 p.2 st) s).length ≤ maxSessions := by
      intro l
      induction l with
      | nil => intro s h; simpa using h
      | cons p rest ih =>
        intro s h
        exact ih _ (applySMOp_length_le p.1 p.2 h)
    exact hgen ops [] (Nat.zero_le _)
  · intro ids hnd hlen
    have h := foldl_getOrCreate_zero ids [] hnd (by simp) (by simp) (Nat.zero_le _)
    rw [h]
    simp only [List.length_nil, Nat.zero_add]
    omega

/-- Ids used by the C1 witness: 101 pairwise distinct session ids. -/
def c1WitnessIds : List String :=
  (List.range 101).map (fun n => String.mk (List.replicate n 'a'))

/-- Witness for C1: a concrete operation from a valid state stays within
capacity, and folding 101 distinct `getOrCreate` calls from the empty
registry leaves exactly `maxSessions` sessions. -/
theorem C1_transcript_capacity_witness :
    (applySMOp 0 (SMOp.getOrCreate "s1") ([] : SessionMap)).length ≤ maxSessions ∧
    (c1WitnessIds.foldl (fun st i => getOrCreate 0 i st) ([] : SessionMap)).length =
      maxSessions := by
  constructor
  · exact C1_transcript_capacity.1 0 (SMOp.getOrCreate "s1") [] (Nat.zero_le _)
  · refine C1_transcript_capacity.2.2 c1WitnessIds ?_ ?_
    · unfold c1WitnessIds
      refine List.Nodup.map ?_ (List.nodup_range 101)
      intro a b hab
      have := congrArg (fun s : String => s.data.length) hab
      simpa using this
    · unfold c1WitnessIds
      simp [maxSessions]

/-- Claim C7: the generation-context registry never exceeds `maxContexts`
(50) entries after any `getSession` call; inserting a 51st distinct context
synchronously evicts exactly the single first-inserted entry (insertion-order
FIFO), and a subsequent `getSession` for the evicted id is a cache miss that
invokes the supplied factories again. -/
theorem C7_context_fifo :
    (∀ (γ δ : Type) (cc : Unit → γ) (ch : γ → δ) (id : String) (m : LlamaMap γ δ),
       m.length ≤ maxContexts → (getSession id cc ch m).state.length ≤ maxContexts) ∧
    (∀ (γ δ : Type) (cc : Unit → γ) (ch : γ → δ) (e0 : String × γ × δ)
       (t : LlamaMap γ δ) (id : String),
       ((e0 :: t).map Prod.fst).Nodup → (e0 :: t).length = maxContexts →
       id ∉ (e0 :: t).map Prod.fst →
       (getSession id cc ch (e0 :: t)).invoked = true ∧
       (getSession id cc ch (e0 :: t)).state = t ++ [(id, cc (), ch (cc ()))] ∧
       (getSession id cc ch (e0 :: t)).state.length = maxContexts ∧
       lookupLS (getSession id cc ch (e0 :: t)).state e0.1 = none ∧
       (getSession e0.1 cc ch (getSession id cc ch (e0 :: t)).state).invoked = true) := by
  refine ⟨fun γ δ cc ch id m h => getSession_state_le cc ch id m h, ?_⟩
  intro γ δ cc ch e0 t id hnd hlen hid
  have hev := getSession_evict cc ch e0 t id hnd hlen hid
  have hne : id ≠ e0.1 := by
    intro hcontra
    exact hid (hcontra ▸ List.mem_map.mpr ⟨e0, List.mem_cons_self _ _, rfl⟩)
  simp only [List.map_cons, List.nodup_cons] at hnd
  have hkeys : e0.1 ∉ (t ++ [(id, cc (), ch (cc ()))]).map Prod.fst := by
    rw [List.map_append]
    simp only [List.mem_append, List.map_cons, List.map_nil, List.mem_singleton]
    rintro (hmem | hmem)
    · exact hnd.1 hmem
    · exact hne hmem.symm
  have hlk : lookupLS (t ++ [(id, cc (), ch (cc ()))]) e0.1 = none := by
    unfold lookupLS
    rw [Option.map_eq_none', find?_key_eq_none]
    exact hkeys
  refine ⟨by rw [hev], by rw [hev], ?_, by rw [hev]; exact hlk, ?_⟩
  · rw [hev]
    simp only [List.length_append, List.length_cons, List.length_nil] at hlen ⊢
    omega
  · rw [hev]
    unfold getSession
    rw [find?_key_eq_none.mpr hkeys]
    rfl

/-- Tail of the 50-entry registry used by the C7 witness. -/
def c7WitnessTail : LlamaMap Unit Unit :=
  (List.range 49).map (fun n => (String.mk (List.replicate (n + 1) 'b'), (), ()))

/-- Witness for C7 at a concrete full registry: the 51st insert evicts the
first-inserted entry ("" here), keeps the size at 50, and a later lookup of
the evicted id re-invokes the factories. -/
theorem C7_context_fifo_witness :
    (getSession "z" (fun _ => ()) (fun _ => ()) (("", (), ()) :: c7WitnessTail)).invoked = true ∧
    (getSession "z" (fun _ => ()) (fun _ => ()) (("", (), ()) :: c7WitnessTail)).state =
      c7WitnessTail ++ [("z", (), ())] ∧
    (getSession "z" (fun _ => ()) (fun _ => ()) (("", (), ()) :: c7WitnessTail)).state.length =
      maxContexts ∧
    lookupLS (getSession "z" (fun _ => ()) (fun _ => ()) (("", (), ()) :: c7WitnessTail)).state
      ("", (), ()).1 = none ∧
    (getSession ("", (), ()).1 (fun _ => ())
      (fun _ => ()) (getSession "z" (fun _ => ()) (fun _ => ())
        (("", (), ()) :: c7WitnessTail)).state).invoked = true :=
  C7_context_fifo.2 Unit Unit (fun _ => ()) (fun _ => ()) ("", (), ()) c7WitnessTail "z"
    (by decide) (by decide) (by decide)

/-- Claim C9: `SessionManager.reset` removes only that session's transcript
entry — the generation-context registry (and each cached pair in it) is
untouched, other transcript entries are untouched — and conversely a
`getSession` call (including one that evicts) leaves the transcript registry
unchanged. -/
theorem C9_registry_independence :
    ∀ (γ δ : Type) (st : SysState γ δ) (id id' : String)
      (cc : Unit → γ) (ch : γ → δ),
      (resetSys id st).llama = st.llama ∧
      lookupLS (resetSys id st).llama id' = lookupLS st.llama id' ∧
      lookupSM (resetSys id st).transcripts id = none ∧
      (id' ≠ id → lookupSM (resetSys id st).transcripts id' = lookupSM st.transcripts id') ∧
      (getSessionSys id cc ch st).transcripts = st.transcripts := by
  intro γ δ st id id' cc ch
  exact ⟨rfl, rfl, lookupSM_resetSM_self st.transcripts id,
    fun h => lookupSM_resetSM_other st.transcripts id id' h, rfl⟩

/-- Witness for C9 at a concrete two-registry state. -/
theorem C9_registry_independence_witness :
    (resetSys "a" (⟨[("a", seedSession 0 "a")], [("a", (), ())]⟩ : SysState Unit Unit)).llama =
      (⟨[("a", seedSession 0 "a")], [("a", (), ())]⟩ : SysState Unit Unit).llama ∧
    lookupSM (resetSys "a"
      (⟨[("a", seedSession 0 "a")], [("a", (), ())]⟩ : SysState Unit Unit)).transcripts "a" =
      none ∧
    lookupSM (resetSys "a"
      (⟨[("a", seedSession 0 "a")], [("a", (), ())]⟩ : SysState Unit Unit)).transcripts "b" =
      lookupSM (⟨[("a", seedSession 0 "a")], [("a", (), ())]⟩ :
        SysState Unit Unit).transcripts "b" ∧
    (getSessionSys "a" (fun _ => ()) (fun _ => ())
      (⟨[("a", seedSession 0 "a")], [("a", (), ())]⟩ : SysState Unit Unit)).transcripts =
      (⟨[("a", seedSession 0 "a")], [("a", (), ())]⟩ : SysState Unit Unit).transcripts := by
  have h := C9_registry_independence Unit Unit
    ⟨[("a", seedSession 0 "a")], [("a", (), ())]⟩ "a" "b" (fun _ => ()) (fun _ => ())
  exact ⟨h.1, h.2.2.1, h.2.2.2.1 (by decide), h.2.2.2.2⟩

/-- Claim C2: when the engine stream selected for a request fails, then if
`fallback_enabled` is true and the resolved tier is not `primary` the
dispatcher retries exactly once against the Local engine with the same merged
parameters (one extra local call; the retry's own outcome, including its
failure, is propagated unmodified); if `fallback_enabled` is false or the
tier is already `primary`, the original error is propagated with no retry. -/
theorem C2_fallback_policy :
    ∀ (pol : PolicyModel) (localE : LocalEngineFun) (heavyE : Option HeavyEngineFun)
      (sess prompt : String) (params : GenerationParams) (route : RouteResult) (e : String),
      (callSelected localE heavyE sess prompt
          (mergeParams params (pol.models (getEngineTier route.rclass)))
          (pol.models (getEngineTier route.rclass)) (getEngineTier route.rclass)).err =
        some e →
      (pol.fallback_enabled = true → getEngineTier route.rclass ≠ Tier.primary →
        dispatchEngine pol localE heavyE sess prompt params route =
          ⟨(callSelected localE heavyE sess prompt
              (mergeParams params (pol.models (getEngineTier route.rclass)))
              (pol.models (getEngineTier route.rclass))
              (getEngineTier route.rclass)).events ++
            (localE sess prompt
              (mergeParams params (pol.models (getEngineTier route.rclass)))).events,
           (localE sess prompt
              (mergeParams params (pol.models (getEngineTier route.rclass)))).err,
           (callSelected localE heavyE sess prompt
              (mergeParams params (pol.models (getEngineTier route.rclass)))
              (pol.models (getEngineTier route.rclass))
              (getEngineTier route.rclass)).localCalls + 1,
           (callSelected localE heavyE sess prompt
              (mergeParams params (pol.models (getEngineTier route.rclass)))
              (pol.models (getEngineTier route.rclass))
              (getEngineTier route.rclass)).heavyCalls⟩) ∧
      (pol.fallback_enabled = false ∨ getEngineTier route.rclass = Tier.primary →
        dispatchEngine pol localE heavyE sess prompt params route =
          ⟨(callSelected localE heavyE sess prompt
              (mergeParams params (pol.models (getEngineTier route.rclass)))
              (pol.models (getEngineTier route.rclass))
              (getEngineTier route.rclass)).events,
           some e,
           (callSelected localE heavyE sess prompt
              (mergeParams params (pol.models (getEngineTier route.rclass)))
              (pol.models (getEngineTier route.rclass))
              (getEngineTier route.rclass)).localCalls,
           (callSelected localE heavyE sess prompt
              (mergeParams params (pol.models (getEngineTier route.rclass)))
              (pol.models (getEngineTier route.rclass))
              (getEngineTier route.rclass)).heavyCalls⟩) := by
  intro pol localE heavyE sess prompt params route e hfail
  constructor
  · intro hfb hnp
    exact dispatchEngine_fail_fb pol localE heavyE sess prompt params route e hfail hfb hnp
  · intro hdis
    refine dispatchEngine_fail_nofb pol localE heavyE sess prompt params route e hfail ?_
    rintro ⟨h1, h2⟩
    rcases hdis with h | h
    · rw [h] at h1
      exact Bool.false_ne_true h1
    · exact h2 h

/-- Policy used by concrete dispatcher witnesses: empty tier defaults,
fallback enabled, routing-decision logging off. -/
def witPolicy : PolicyModel := ⟨fun _ => {}, true, false⟩

/-- Same policy with fallback disabled. -/
def witPolicyNoFb : PolicyModel := ⟨fun _ => {}, false, false⟩

/-- A local engine stub that streams one token successfully. -/
def witLocal : LocalEngineFun :=
  fun _ _ _ => ⟨[GEvent.first, GEvent.token "ok", GEvent.done], none⟩

/-- A heavy engine stub that always fails (after its `finally`-emitted
`done`, as the vLLM adapter does). -/
def witHeavy : HeavyEngineFun := fun _ _ _ => ⟨[GEvent.done], some "heavy down"⟩

/-- Witness for C2: "research" routes to the heavy tier; with the failing
heavy stub and fallback enabled the call recovers via exactly one local
retry, and with fallback disabled the original error propagates with no
retry. -/
theorem C2_fallback_policy_witness :
    dispatchEngine witPolicy witLocal (some witHeavy) "s" "research"
      ⟨none, none, none, none⟩ (classify "research") =
      ⟨[GEvent.done, GEvent.first, GEvent.token "ok", GEvent.done], none, 1, 1⟩ ∧
    dispatchEngine witPolicyNoFb witLocal (some witHeavy) "s" "research"
      ⟨none, none, none, none⟩ (classify "research") =
      ⟨[GEvent.done], some "heavy down", 0, 1⟩ := by
  constructor
  · have h := (C2_fallback_policy witPolicy witLocal (some witHeavy) "s" "research"
      ⟨none, none, none, none⟩ (classify "research") "heavy down" (by rfl)).1 rfl
      (by decide)
    exact h.trans (by rfl)
  · have h := (C2_fallback_policy witPolicyNoFb witLocal (some witHeavy) "s" "research"
      ⟨none, none, none, none⟩ (classify "research") "heavy down" (by rfl)).2 (Or.inl rfl)
    exact h.trans (by rfl)

/-- Claim C8: when `classify` returns `direct_command` with an extracted
structured command and the device execution throws, the dispatcher does not
propagate the device error: the call is exactly an engine generation on the
original prompt. -/
theorem C8_device_fallthrough :
    ∀ (pol : PolicyModel) (localE : LocalEngineFun) (heavyE : Option HeavyEngineFun)
      (devExec : DeviceCommand → Except String String) (sess prompt : String)
      (params : GenerationParams) (dc : DeviceCommand) (e : String),
      (classify prompt).deviceCommand = some dc →
      (classify prompt).rclass = RouteClass.direct_command →
      devExec dc = Except.error e →
      dispatch pol localE heavyE devExec sess prompt params =
        dispatchEngine pol localE heavyE sess prompt params (classify prompt) := by
  intro pol localE heavyE devExec sess prompt params dc e hdc hrc hde
  simp only [dispatch, hdc, hde]
  rw [if_pos hrc]

/-- Witness for C8: "turn on the lights" parses to a structured lights
command; with a throwing device executor the dispatcher falls through to
plain engine generation on the original prompt. -/
theorem C8_device_fallthrough_witness :
    dispatch witPolicy witLocal none (fun _ => Except.error "device boom") "s"
      "turn on the lights" ⟨none, none, none, none⟩ =
      dispatchEngine witPolicy witLocal none "s" "turn on the lights"
        ⟨none, none, none, none⟩ (classify "turn on the lights") :=
  C8_device_fallthrough witPolicy witLocal none (fun _ => Except.error "device boom")
    "s" "turn on the lights" ⟨none, none, none, none⟩
    ⟨DeviceType.lights, "turn_on", none⟩ "device boom" (by rfl) (by rfl) (by rfl)

/-- Claim C4 (amended): an error THROWN by the selected engine stream is
retried at most once via fallback (one extra local call) and, if not
recovered, surfaced — in particular an error thrown by the Local engine
before generation (e.g. the dev-mode prompt-length gate) on a primary-tier
request is surfaced.  However a failure of the model-inference call inside
`LocalLlamaEngine.generateStream` is caught by the engine itself: on a
primary-tier request the caller receives a normally completed stream with a
single `done` event and no error.  (The frozen claim asserted every Local
generation failure on primary is surfaced; the counterexample shows the
inference-call failure is swallowed.) -/
theorem C4_error_surfacing :
    (∀ (pol : PolicyModel) (localE : LocalEngineFun) (heavyE : Option HeavyEngineFun)
       (sess prompt : String) (params : GenerationParams) (route : RouteResult) (e : String),
       (callSelected localE heavyE sess prompt
           (mergeParams params (pol.models (getEngineTier route.rclass)))
           (pol.models (getEngineTier route.rclass)) (getEngineTier route.rclass)).err =
         some e →
       (pol.fallback_enabled = true → getEngineTier route.rclass ≠ Tier.primary →
         (dispatchEngine pol localE heavyE sess prompt params route).localCalls =
           (callSelected localE heavyE sess prompt
             (mergeParams params (pol.models (getEngineTier route.rclass)))
             (pol.models (getEngineTier route.rclass))
             (getEngineTier route.rclass)).localCalls + 1 ∧
         (dispatchEngine pol localE heavyE sess prompt params route).err =
           (localE sess prompt
             (mergeParams params (pol.models (getEngineTier route.rclass)))).err) ∧
       (¬(pol.fallback_enabled = true ∧ getEngineTier route.rclass ≠ Tier.primary) →
         (dispatchEngine pol localE heavyE sess prompt params route).err = some e)) ∧
    (∀ (pol : PolicyModel) (hc : Bool) (hOut : VllmOutcome) (e : String)
       (resp : Option String) (devExec : DeviceCommand → Except String String)
       (sess prompt : String) (params : GenerationParams),
       (classify prompt).rclass = RouteClass.normal →
       (dispatchJarvis pol hc hOut ⟨some e, resp⟩ devExec sess prompt params).err = some e) ∧
    (∀ (pol : PolicyModel) (hc : Bool) (hOut : VllmOutcome)
       (devExec : DeviceCommand → Except String String) (sess prompt : String)
       (params : GenerationParams),
       (classify prompt).rclass = RouteClass.normal →
       (dispatchJarvis pol hc hOut ⟨none, none⟩ devExec sess prompt params).err = none ∧
       (dispatchJarvis pol hc hOut ⟨none, none⟩ devExec sess prompt params).events =
         [GEvent.done]) := by
  refine ⟨?_, ?_, ?_⟩
  · intro pol localE heavyE sess prompt params route e hfail
    constructor
    · intro hfb hnp
      rw [dispatchEngine_fail_fb pol localE heavyE sess prompt params route e hfail hfb hnp]
      exact ⟨rfl, rfl⟩
    · intro hnofb
      rw [dispatchEngine_fail_nofb pol localE heavyE sess prompt params route e hfail hnofb]
  · intro pol hc hOut e resp devExec sess prompt params hrc
    have hne : (classify prompt).rclass ≠ RouteClass.direct_command := by
      rw [hrc]; decide
    have hdc : (classify prompt).deviceCommand = none := classify_dc_none hne
    simp only [dispatchJarvis, dispatch, hdc]
    have hfail : (callSelected (fun _ _ _ => localStream ⟨some e, resp⟩)
        (if hc then some (fun _ _ _ => vllmStream ⟨hOut.tokens, hOut.failure⟩) else none)
        sess prompt
        (mergeParams params (pol.models (getEngineTier (classify prompt).rclass)))
        (pol.models (getEngineTier (classify prompt).rclass))
        (getEngineTier (classify prompt).rclass)).err = some e := by
      rw [hrc]
      cases hc <;> rfl
    have hnofb : ¬(pol.fallback_enabled = true ∧
        getEngineTier (classify prompt).rclass ≠ Tier.primary) := by
      rw [hrc]
      rintro ⟨_, hn⟩
      exact hn rfl
    rw [dispatchEngine_fail_nofb pol _ _ sess prompt params (classify prompt) e hfail hnofb]
  · intro pol hc hOut devExec sess prompt params hrc
    have hne : (classify prompt).rclass ≠ RouteClass.direct_command := by
      rw [hrc]; decide
    have hdc : (classify prompt).deviceCommand = none := classify_dc_none hne
    simp only [dispatchJarvis, dispatch, hdc]
    have hok : (callSelected (fun _ _ _ => localStream ⟨none, none⟩)
        (if hc then some (fun _ _ _ => vllmStream ⟨hOut.tokens, hOut.failure⟩) else none)
        sess prompt
        (mergeParams params (pol.models (getEngineTier (classify prompt).rclass)))
        (pol.models (getEngineTier (classify prompt).rclass))
        (getEngineTier (classify prompt).rclass)).err = none := by
      rw [hrc]
      cases hc <;> rfl
    rw [dispatchEngine_ok pol _ _ sess prompt params (classify prompt) hok]
    constructor
    · exact hok
    · rw [hrc]
      cases hc <;> rfl

/-- Counterexample for claim C4 as frozen: "tell me a joke" routes to the
primary tier; when the Local engine's model-inference call fails (the
swallowed catch in `LocalLlamaEngine.generateStream`), the dispatcher call
completes as a normal stream carrying only `done`, with no error surfaced. -/
theorem C4_error_surfacing_cex :
    (classify "tell me a joke").rclass = RouteClass.normal ∧
    dispatchJarvis witPolicy false ⟨[], none⟩ ⟨none, none⟩ (fun _ => Except.error "dev")
      "s" "tell me a joke" ⟨none, none, none, none⟩ =
      ⟨[GEvent.done], none, 1, 0⟩ :=
  ⟨rfl, rfl⟩

/-- Witness for C4: a failing heavy selection is retried exactly once and the
retry outcome propagates; a pre-generation Local throw on the primary tier is
surfaced; a swallowed inference failure on the primary tier completes
normally. -/
theorem C4_error_surfacing_witness :
    (dispatchEngine witPolicy witLocal (some witHeavy) "s" "research"
      ⟨none, none, none, none⟩ (classify "research")).localCalls = 1 ∧
    (dispatchJarvis witPolicy true ⟨[], none⟩ ⟨some "gate: prompt too long", none⟩
      (fun _ => Except.error "d") "s" "how are you doing today"
      ⟨none, none, none, none⟩).err = some "gate: prompt too long" ∧
    (dispatchJarvis witPolicy true ⟨[], none⟩ ⟨none, none⟩
      (fun _ => Except.error "d") "s" "how are you doing today"
      ⟨none, none, none, none⟩).err = none ∧
    (dispatchJarvis witPolicy true ⟨[], none⟩ ⟨none, none⟩
      (fun _ => Except.error "d") "s" "how are you doing today"
      ⟨none, none, none, none⟩).events = [GEvent.done] := by
  refine ⟨?_, ?_, ?_, ?_⟩
  · have h := ((C4_error_surfacing.1 witPolicy witLocal (some witHeavy) "s" "research"
      ⟨none, none, none, none⟩ (classify "research") "heavy down" (by rfl)).1 rfl
      (by decide)).1
    exact h.trans (by rfl)
  · exact C4_error_surfacing.2.1 witPolicy true ⟨[], none⟩ "gate: prompt too long" none
      (fun _ => Except.error "d") "s" "how are you doing today"
      ⟨none, none, none, none⟩ (by rfl)
  · exact (C4_error_surfacing.2.2 witPolicy true ⟨[], none⟩
      (fun _ => Except.error "d") "s" "how are you doing today"
      ⟨none, none, none, none⟩ (by rfl)).1
  · exact (C4_error_surfacing.2.2 witPolicy true ⟨[], none⟩
      (fun _ => Except.error "d") "s" "how are you doing today"
      ⟨none, none, none, none⟩ (by rfl)).2

/-- Claim C3 (amended): for every generation call in which the selected
engine stream does not throw — including synthesized device-command
responses and plain local or heavy successes — the collected events match
`first? token* done` with exactly one terminal `done`.  Calls recovered via
fallback are excluded: the failed attempt's events (notably the `done` the
vLLM adapter's `finally` block yields before its error propagates) precede
the fallback's events, so a recovered stream can carry two `done` events.
(The frozen claim included fallback-recovered calls; the counterexample
shows they violate the grammar.) -/
theorem C3_stream_grammar :
    ∀ (pol : PolicyModel) (hc : Bool) (hTokens : List String) (lResp : Option String)
      (devExec : DeviceCommand → Except String String) (sess prompt : String)
      (params : GenerationParams),
      (dispatchJarvis pol hc ⟨hTokens, none⟩ ⟨none, lResp⟩ devExec sess prompt params).err =
        none ∧
      wellFormedStream
        (dispatchJarvis pol hc ⟨hTokens, none⟩ ⟨none, lResp⟩
          devExec sess prompt params).events = true := by
  intro pol hc hTokens lResp devExec sess prompt params
  have hengine : ∀ route : RouteResult,
      (dispatchEngine pol (fun _ _ _ => localStream ⟨none, lResp⟩)
        (if hc then some (fun _ _ _ => vllmStream ⟨hTokens, none⟩) else none)
        sess prompt params route).err = none ∧
      wellFormedStream (dispatchEngine pol (fun _ _ _ => localStream ⟨none, lResp⟩)
        (if hc then some (fun _ _ _ => vllmStream ⟨hTokens, none⟩) else none)
        sess prompt params route).events = true := by
    intro route
    have hok : (callSelected (fun _ _ _ => localStream ⟨none, lResp⟩)
        (if hc then some (fun _ _ _ => vllmStream ⟨hTokens, none⟩) else none)
        sess prompt (mergeParams params (pol.models (getEngineTier route.rclass)))
        (pol.models (getEngineTier route.rclass))
        (getEngineTier route.rclass)).err = none := by
      cases hc <;> cases getEngineTier route.rclass <;>
        first
          | exact localStream_err_none lResp
          | rfl
    rw [dispatchEngine_ok pol _ _ sess prompt params route hok]
    refine ⟨hok, ?_⟩
    cases hc <;> cases getEngineTier route.rclass <;>
      first
        | exact localStream_wf lResp
        | exact wf_vllmEvents hTokens
  cases hdc : (classify prompt).deviceCommand with
  | none =>
    simp only [dispatchJarvis, dispatch, hdc]
    exact hengine (classify prompt)
  | some dc =>
    simp only [dispatchJarvis, dispatch, hdc]
    by_cases hrc : (classify prompt).rclass = RouteClass.direct_command
    · rw [if_pos hrc]
      cases hde : devExec dc with
      | ok r => exact ⟨rfl, rfl⟩
      | error e2 => exact hengine (classify prompt)
    · rw [if_neg hrc]
      exact hengine (classify prompt)

/-- Counterexample for claim C3 as frozen: a hard prompt dispatched to a
failing heavy engine with fallback enabled completes successfully, but the
collected events are `done, first, token, done` — the vLLM `finally` block's
`done` arrives before the fallback stream — violating `first? token* done`. -/
theorem C3_stream_grammar_cex :
    (dispatchJarvis witPolicy true ⟨[], some "vllm down"⟩ ⟨none, some "ok"⟩
      (fun _ => Except.error "d") "s" "research" ⟨none, none, none, none⟩).err = none ∧
    (dispatchJarvis witPolicy true ⟨[], some "vllm down"⟩ ⟨none, some "ok"⟩
      (fun _ => Except.error "d") "s" "research" ⟨none, none, none, none⟩).events =
      [GEvent.done, GEvent.first, GEvent.token "ok", GEvent.done] ∧
    wellFormedStream
      (dispatchJarvis witPolicy true ⟨[], some "vllm down"⟩ ⟨none, some "ok"⟩
        (fun _ => Except.error "d") "s" "research" ⟨none, none, none, none⟩).events =
      false :=
  ⟨rfl, rfl, rfl⟩
